import Mathlib

/-!
Formal model of the `substrate-system/at` CLI (`src/cli.ts`), a command-line
client for AT-protocol DID documents.  Strings are modelled as `List Char`
(`Str`); JS `String.startsWith` is `List.isPrefixOf`, `String.slice(n)` is
`List.drop n`, `Array.includes` is `List.contains`, `Array.filter` is
`List.filter`.  Each command's interaction with the identity provider is
modelled as a pure function from the values fetched over the network to the
list of subsequent externally visible actions together with the command's
outcome.
-/

abbrev Str := List Char

/-- The mutable fields of a PLC operation as passed to
`signPlcOperation` (`cli.ts`): a rotation-key list, verification methods,
services, and an optional alternate-identifier (`alsoKnownAs`) list.
`VM` and `SV` stand for the (opaque) verification-method and service
payload types, which the CLI never inspects. -/
structure DidFields (VM SV : Type) where
  rotationKeys : List Str
  verificationMethods : VM
  services : SV
  alsoKnownAs : Option (List Str)
deriving DecidableEq

/-- The credentials fetched from the provider
(`getRecommendedDidCredentials`, or the last audit-log entry's operation in
`removeCommand`): `rotationKeys` may be absent (`undefined` in JS). -/
structure RecommendedCredentials (VM SV : Type) where
  rotationKeys : Option (List Str)
  verificationMethods : VM
  services : SV
  alsoKnownAs : Option (List Str)
deriving DecidableEq

/- ### `aka` command (`akaCommand`, cli.ts lines 264-326) -/

/-- The composed `alsoKnownAs` list of `akaCommand`:
`const alsoKnownAs = ['at://' + handle, ...urls]` (cli.ts line 303).
Note that the current document's list is never fetched nor read. -/
def akaAlsoKnownAs (handle : Str) (urls : List Str) : List Str :=
  ("at://".data ++ handle) :: urls

/- ### `rotation --remove` command (`removeCommand`, cli.ts lines 374-502) -/

/-- Key normalization of `removeCommand` (cli.ts line 377):
`rawKey.startsWith('did:key:') ? rawKey : 'did:key:' + rawKey`. -/
def normalizeKey (rawKey : Str) : Str :=
  if "did:key:".data.isPrefixOf rawKey then rawKey else "did:key:".data ++ rawKey

/-- Externally visible actions of `removeCommand` after the current
credentials have been fetched (login, handle resolution and the credentials
fetch itself always precede these, independent of the branch taken). -/
inductive RemoveStep (VM SV : Type) where
  | requestPlcOperationSignature
  | promptEmailCode
  | signPlcOperation (op : DidFields VM SV)
  | submitPlcOperation (op : DidFields VM SV)
deriving DecidableEq

/-- Outcome of `removeCommand`: either the normalized key was not found
(the command prints the current keys and returns, exit code 0), or a
composed operation was signed and submitted. -/
inductive RemoveOutcome (VM SV : Type) where
  | keyNotFound (currentKeys : List Str)
  | submitted (op : DidFields VM SV)
deriving DecidableEq

/-- `removeCommand` (cli.ts lines 374-502) after the fetch of the current
credentials `current`: normalize the key, check membership
(`currentRotationKeys.includes(key)`, line 443), and on success request the
email code, prompt for it, and sign/submit the operation with
`rotationKeys` filtered (`.filter(k => k !== key)`, line 472) and all other
fields passed through. -/
def removeRun {VM SV : Type} (rawKey : Str) (current : RecommendedCredentials VM SV) :
    List (RemoveStep VM SV) × RemoveOutcome VM SV :=
  let key := normalizeKey rawKey
  let currentRotationKeys := current.rotationKeys.getD []
  if currentRotationKeys.contains key then
    let newRotationKeys := currentRotationKeys.filter (fun k => k != key)
    let op : DidFields VM SV :=
      { rotationKeys := newRotationKeys
        verificationMethods := current.verificationMethods
        services := current.services
        alsoKnownAs := current.alsoKnownAs }
    ([RemoveStep.requestPlcOperationSignature, RemoveStep.promptEmailCode,
      RemoveStep.signPlcOperation op, RemoveStep.submitPlcOperation op],
     RemoveOutcome.submitted op)
  else
    ([], RemoveOutcome.keyNotFound currentRotationKeys)

/-- The account's credentials after `removeCommand` finishes, assuming the
provider applies a submitted operation and nothing else changes state. -/
def applyRemoveOutcome {VM SV : Type} (current : RecommendedCredentials VM SV) :
    RemoveOutcome VM SV → RecommendedCredentials VM SV
  | RemoveOutcome.submitted op =>
      { rotationKeys := some op.rotationKeys
        verificationMethods := op.verificationMethods
        services := op.services
        alsoKnownAs := op.alsoKnownAs }
  | RemoveOutcome.keyNotFound _ => current

/-- Projection used to state claims about the submitted rotation keys. -/
def removeOutcomeKeys {VM SV : Type} : RemoveOutcome VM SV → Option (List Str)
  | RemoveOutcome.submitted op => some op.rotationKeys
  | RemoveOutcome.keyNotFound _ => none

/- ### `rotation` command, add path (`rotationCommand`, cli.ts lines 504-652) -/

/-- One character of the case-insensitive hex class `[0-9a-f]` of the
private-key format regex (cli.ts line 528). -/
def isHexChar (c : Char) : Bool :=
  c.isDigit || (decide ('a' ≤ c) && decide (c ≤ 'f')) ||
    (decide ('A' ≤ c) && decide (c ≤ 'F'))

/-- The private-key format check of `rotationCommand` (cli.ts line 528):
`/^[0-9a-f]{64}$/i.test(privateKeyHex)` — exactly 64 hex characters,
either case. -/
def isHex64 (s : Str) : Bool :=
  s.length == 64 && s.all isHexChar

/-- Numeric value of a hex digit (used to interpret the private scalar). -/
def hexCharVal (c : Char) : Nat :=
  if c.isDigit then c.toNat - '0'.toNat
  else if 'a' ≤ c ∧ c ≤ 'f' then c.toNat - 'a'.toNat + 10
  else if 'A' ≤ c ∧ c ≤ 'F' then c.toNat - 'A'.toNat + 10
  else 0

/-- Big-endian interpretation of a hex string as a natural number. -/
def hexToNat (s : Str) : Nat :=
  s.foldl (fun acc c => acc * 16 + hexCharVal c) 0

/-- The group order of the secp256k1 curve. -/
def secp256k1Order : Nat :=
  0xFFFFFFFFFFFFFFFFFFFFFFFFFFFFFFFEBAAEDCE6AF48A03BBFD25E8CD0364141

/-- Modelled from the spec: the Key Codec operation
`Secp256k1Keypair.import` (provided by the external cryptography library,
not part of `src/`) accepts a hex private key only when the resulting
scalar is a valid private key for the curve — in particular it rejects the
all-zero scalar and any scalar not below the curve order. -/
def importOk (hex : Str) : Bool :=
  hexToNat hex != 0 && hexToNat hex < secp256k1Order

/-- Externally visible steps of `rotationCommand` (add path). The private
key validation and the key import happen before all of them. -/
inductive RotationStep (VM SV : Type) where
  | login
  | getRecommendedDidCredentials
  | requestPlcOperationSignature
  | promptEmailCode
  | signPlcOperation (op : DidFields VM SV)
  | submitPlcOperation (op : DidFields VM SV)
deriving DecidableEq

/-- Outcome of the add-rotation-key path: the key string can fail the
format regex (`invalidFormat`, thrown with exit code 1), the key import
can fail (`importError`, also fatal), the key can already be present
(`alreadyExists`, a successful no-op return), or an operation is
submitted. -/
inductive RotationOutcome (VM SV : Type) where
  | invalidFormat
  | importError
  | alreadyExists
  | submitted (op : DidFields VM SV)
deriving DecidableEq

/-- `rotationCommand` with a caller-supplied private key (cli.ts lines
504-652), parametrized by `didKeyOf`, the library's derivation of the
`did:key` identifier from the private key (`keypair.did()`), and by
`current`, the credentials returned by `getRecommendedDidCredentials`.
Order of the source: validate the hex format (line 528), import the key
(line 535), log in (line 549), fetch credentials (line 554), check
`current.data.rotationKeys?.includes(didKey)` (line 559), then request and
prompt for the email code and sign/submit with
`rotationKeys = [...(current.data.rotationKeys || []), didKey]`
(lines 586-601), all other fields passed through. -/
def rotationRun {VM SV : Type} (didKeyOf : Str → Str) (privateKeyHex : Str)
    (current : RecommendedCredentials VM SV) :
    List (RotationStep VM SV) × RotationOutcome VM SV :=
  if isHex64 privateKeyHex = false then
    ([], RotationOutcome.invalidFormat)
  else if importOk privateKeyHex = false then
    ([], RotationOutcome.importError)
  else
    let didKey := didKeyOf privateKeyHex
    if (current.rotationKeys.getD []).contains didKey then
      ([RotationStep.login, RotationStep.getRecommendedDidCredentials],
       RotationOutcome.alreadyExists)
    else
      let newRotationKeys := current.rotationKeys.getD [] ++ [didKey]
      let op : DidFields VM SV :=
        { rotationKeys := newRotationKeys
          verificationMethods := current.verificationMethods
          services := current.services
          alsoKnownAs := current.alsoKnownAs }
      ([RotationStep.login, RotationStep.getRecommendedDidCredentials,
        RotationStep.requestPlcOperationSignature, RotationStep.promptEmailCode,
        RotationStep.signPlcOperation op, RotationStep.submitPlcOperation op],
       RotationOutcome.submitted op)

/-- The account's credentials after a run of the add path, assuming the
provider's recommended credentials reflect a submitted operation and are
otherwise unchanged. -/
def applyRotationOutcome {VM SV : Type} (current : RecommendedCredentials VM SV) :
    RotationOutcome VM SV → RecommendedCredentials VM SV
  | RotationOutcome.submitted op =>
      { rotationKeys := some op.rotationKeys
        verificationMethods := op.verificationMethods
        services := op.services
        alsoKnownAs := op.alsoKnownAs }
  | _ => current

/-- Whether a step submits a change operation to the provider. -/
def isSubmitStep {VM SV : Type} : RotationStep VM SV → Bool
  | RotationStep.submitPlcOperation _ => true
  | _ => false

/-- Number of submitted change operations in a trace of the add path. -/
def submitCount {VM SV : Type} (t : List (RotationStep VM SV)) : Nat :=
  (t.filter isSubmitStep).length

/-- Projection used to state claims about the submitted operation. -/
def rotationOutcomeOp {VM SV : Type} : RotationOutcome VM SV → Option (DidFields VM SV)
  | RotationOutcome.submitted op => some op
  | _ => none

/- ### `did` command (`didCommand`, cli.ts lines 199-262) -/

/-- How `didCommand` obtains the DID for its input: either the input is
passed through as an already-resolved DID, or a handle is resolved via the
provider's `resolveHandle`. -/
inductive ResolveRoute where
  | passThrough (did : Str)
  | resolveHandle (handle : Str)
deriving DecidableEq

/-- The resolution routing of `didCommand` (cli.ts lines 203-221):
`handle` is the input with a leading `@` stripped
(`handleOrDid.startsWith('@') ? handleOrDid.slice(1) : handleOrDid`),
while the DID pass-through test is on the original input
(`handleOrDid.startsWith('did:')`). -/
def didCommandRoute (handleOrDid : Str) : ResolveRoute :=
  let handle := if "@".data.isPrefixOf handleOrDid then handleOrDid.drop 1
                else handleOrDid
  if "did:".data.isPrefixOf handleOrDid then ResolveRoute.passThrough handleOrDid
  else ResolveRoute.resolveHandle handle

/-- Where `didCommand` fetches the document from, given the resolved DID
(cli.ts lines 237-250). -/
inductive FetchDispatch where
  | plcDirectory (url : Str)
  | webWellKnown (url : Str)
  | unsupported (msg : Str)
deriving DecidableEq

/-- JS `String.replace(':', '/')`: replace the first colon (only) by a
slash. -/
def replaceFirstColon : Str → Str
  | [] => []
  | c :: rest => if c == ':' then '/' :: rest else c :: replaceFirstColon rest

/-- The document-fetch dispatch of `didCommand` (cli.ts lines 237-250):
`did:plc:` DIDs are fetched from `https://plc.directory/<did>`; `did:web:`
DIDs from `https://<domain>/.well-known/did.json` where the domain is the
DID with the `did:web:` tag removed and the first remaining colon replaced
by a slash; anything else throws `Unsupported DID method`. -/
def fetchDocumentDispatch (did : Str) : FetchDispatch :=
  if "did:plc:".data.isPrefixOf did then
    FetchDispatch.plcDirectory ("https://plc.directory/".data ++ did)
  else if "did:web:".data.isPrefixOf did then
    let webPart := replaceFirstColon (did.drop 8)
    FetchDispatch.webWellKnown
      ("https://".data ++ webPart ++ "/.well-known/did.json".data)
  else
    FetchDispatch.unsupported ("Unsupported DID method: ".data ++ did)

/- ### `keys` command, JWK export (`keysCommand`, cli.ts lines 328-372) -/

/-- The base64url alphabet (RFC 4648 §5), as produced by Node's
`Buffer.toString('base64url')` (which emits no padding). -/
def b64UrlAlphabet : List Char :=
  "ABCDEFGHIJKLMNOPQRSTUVWXYZabcdefghijklmnopqrstuvwxyz0123456789-_".data

/-- Character for a 6-bit group. -/
def b64Char (n : Nat) : Char := b64UrlAlphabet.getD n 'A'

/-- Unpadded base64url encoding of a byte sequence, as produced by
`Buffer.toString('base64url')`. -/
def base64url : List Nat → List Char
  | [] => []
  | [a] => [b64Char (a / 4), b64Char (a % 4 * 16)]
  | [a, b] => [b64Char (a / 4), b64Char (a % 4 * 16 + b / 16), b64Char (b % 16 * 4)]
  | a :: b :: c :: rest =>
      b64Char (a / 4) :: b64Char (a % 4 * 16 + b / 16) ::
      b64Char (b % 16 * 4 + c / 64) :: b64Char (c % 64) :: base64url rest

/-- Index of a character in the base64url alphabet. -/
def b64Val (c : Char) : Nat := b64UrlAlphabet.findIdx (fun d => d == c)

/-- Unpadded base64url decoding (defined on well-formed encodings). -/
def base64urlDecode : List Char → List Nat
  | [] => []
  | [_] => []
  | [c1, c2] => [b64Val c1 * 4 + b64Val c2 / 16]
  | [c1, c2, c3] =>
      [b64Val c1 * 4 + b64Val c2 / 16, b64Val c2 % 16 * 16 + b64Val c3 / 4]
  | c1 :: c2 :: c3 :: c4 :: rest =>
      (b64Val c1 * 4 + b64Val c2 / 16) :: (b64Val c2 % 16 * 16 + b64Val c3 / 4) ::
      (b64Val c3 % 4 * 64 + b64Val c4) :: base64urlDecode rest

/-- Modelled from the spec: decompression of a secp256k1 public point by
the external cryptography library (`secp256k1.Point.fromHex` followed by
`toRawBytes(false)`, not part of `src/`): from the 33-byte compressed form
(sign byte 2 or 3, then the x-coordinate) it recovers a 32-byte
x-coordinate and a 32-byte y-coordinate whose parity agrees with the sign
byte. -/
structure DecompressedPoint where
  signByte : Nat
  xBytes : List Nat
  yBytes : List Nat
  signValid : signByte = 2 ∨ signByte = 3
  xLen : xBytes.length = 32
  yLen : yBytes.length = 32
  xBound : ∀ b ∈ xBytes, b < 256
  yBound : ∀ b ∈ yBytes, b < 256
  parityConsistent : yBytes.getLastD 0 % 2 = signByte % 2

/-- The uncompressed encoding `[0x04, x (32 bytes), y (32 bytes)]`
returned by `point.toRawBytes(false)` (cli.ts lines 356-358). -/
def DecompressedPoint.toRawBytes (p : DecompressedPoint) : List Nat :=
  4 :: p.xBytes ++ p.yBytes

/-- The JWK object of `keysCommand` (cli.ts lines 362-369). -/
structure Jwk where
  kty : Str
  crv : Str
  x : List Char
  y : List Char
  d : List Char
  keyOps : List Str
deriving DecidableEq

/-- The JWK construction of `keysCommand` (cli.ts lines 348-370):
`x = uncompressed.slice(1, 33)`, `y = uncompressed.slice(33, 65)`, each
base64url-encoded, and `d` the base64url encoding of the private key
bytes. -/
def jwkOfKeypair (privateKeyBytes : List Nat) (uncompressedPubkey : List Nat) : Jwk :=
  let x := (uncompressedPubkey.drop 1).take 32
  let y := (uncompressedPubkey.drop 33).take 32
  { kty := "EC".data
    crv := "secp256k1".data
    x := base64url x
    y := base64url y
    d := base64url privateKeyBytes
    keyOps := ["sign".data] }

/-- A concrete decompressed point used to evaluate the JWK construction. -/
def samplePoint : DecompressedPoint where
  signByte := 2
  xBytes := List.replicate 32 1
  yBytes := List.replicate 32 2
  signValid := Or.inl rfl
  xLen := by decide
  yLen := by decide
  xBound := by decide
  yBound := by decide
  parityConsistent := by decide

-- smoke tests (membership, normalization, filter) on concrete inputs
example : normalizeKey "zKey".data = "did:key:zKey".data := by decide
example : normalizeKey "did:key:zKey".data = "did:key:zKey".data := by decide
example :
    (removeRun "zA".data
      ⟨some ["did:key:zA".data, "did:key:zB".data], (), (), none⟩).2 =
    RemoveOutcome.submitted ⟨["did:key:zB".data], (), (), none⟩ := by decide
example :
    (removeRun "zC".data
      ⟨some ["did:key:zA".data], (), (), none⟩) =
    ([], RemoveOutcome.keyNotFound ["did:key:zA".data]) := by decide

/- ### Helper lemmas -/

theorem isPrefixOf_append_self (p t : Str) : p.isPrefixOf (p ++ t) = true := by
  induction p with
  | nil => simp [List.isPrefixOf]
  | cons c cs ih => simp [List.isPrefixOf, ih]

theorem contains_append_singleton (l : List Str) (a : Str) :
    (l ++ [a]).contains a = true :=
  List.elem_iff.mpr (by simp)

theorem length_filter_bne (l : List Str) (a : Str) :
    (l.filter (fun k => k != a)).length = l.length - l.count a := by
  induction l with
  | nil => simp
  | cons x xs ih =>
    have hcle : xs.count a ≤ xs.length := List.count_le_length a xs
    by_cases hxa : x = a
    · subst hxa
      simp [List.filter_cons, List.count_cons, ih]
    · have hne : (x != a) = true := by simp [hxa]
      have hne2 : (x == a) = false := by simp [hxa]
      simp [List.filter_cons, List.count_cons, hne, hne2, ih]
      omega

/- ### Claim theorems -/

/-- C1 counterexample: the `aka` workflow is not a read-modify-write of the
current alternate-identifier list.  Concretely, for `aka alice.example
https://github.com/alice` with current list
`[at://alice.example, https://old.example]` (length 2), the composed list
does not contain the previously present entry `https://old.example` and
has length 2, not 2 + 1 as the claim requires. -/
theorem aka_discards_previous_entries :
    (akaAlsoKnownAs "alice.example".data
        ["https://github.com/alice".data]).contains "https://old.example".data
      = false ∧
    (akaAlsoKnownAs "alice.example".data ["https://github.com/alice".data]).length
      = 2 ∧
    (["at://alice.example".data, "https://old.example".data] : List Str).length + 1
      = 3 := by
  decide

/-- C1 (amended): the composed `alsoKnownAs` list of the `aka` workflow is
built without reading the current list: it is the canonical self-identifier
`at://<handle>` followed by exactly the caller-supplied URLs in order, so
its head is the self-identifier, its tail is the URL list, its last element
is the last caller-supplied URL, and its length is 1 + the number of URLs
regardless of the previous list (previously present entries are
discarded). -/
theorem aka_compose_replaces (handle : Str) (urls : List Str) :
    (akaAlsoKnownAs handle urls).head? = some ("at://".data ++ handle) ∧
    (akaAlsoKnownAs handle urls).tail = urls ∧
    (akaAlsoKnownAs handle urls).length = 1 + urls.length ∧
    (urls ≠ [] → (akaAlsoKnownAs handle urls).getLast? = urls.getLast?) := by
  refine ⟨rfl, rfl, by simp [akaAlsoKnownAs]; omega, fun h => ?_⟩
  cases urls with
  | nil => exact absurd rfl h
  | cons u us => exact List.getLast?_cons_cons ..

theorem aka_compose_replaces_witness :
    (akaAlsoKnownAs "alice.example".data
        ["https://github.com/alice".data]).getLast? =
      some "https://github.com/alice".data :=
  (aka_compose_replaces "alice.example".data
    ["https://github.com/alice".data]).2.2.2 (by decide)

/-- C2 counterexample: `removeCommand` filters with `k !== key`, which
removes every occurrence.  With current rotation keys
`[did:key:zdup, did:key:zdup]` and caller key `zdup`, the submitted list is
`[]` (both occurrences removed, length 0), while the claim requires exactly
one occurrence removed (a list of length 1). -/
theorem remove_duplicate_removes_both :
    removeOutcomeKeys
      ((removeRun "zdup".data
        ⟨some ["did:key:zdup".data, "did:key:zdup".data], (), (), none⟩).2) =
      some [] ∧
    (["did:key:zdup".data, "did:key:zdup".data] : List Str).length - 1 = 1 := by
  decide

/-- C2 (amended): when the normalized caller-supplied key is present in the
current rotation-key set, the submitted rotation-key list is the current
list with every occurrence of that key removed: the result is a sublist of
the current list (relative order of the remaining entries preserved), it no
longer contains the key, every other entry is kept, and its length is the
current length minus the number of occurrences of the key; in particular,
when the key occurs exactly once, exactly that one entry is removed. -/
theorem remove_removes_all_occurrences {VM SV : Type} (rawKey : Str)
    (current : RecommendedCredentials VM SV)
    (h : (current.rotationKeys.getD []).contains (normalizeKey rawKey) = true) :
    removeOutcomeKeys (removeRun rawKey current).2 =
      some ((current.rotationKeys.getD []).filter
        (fun k => k != normalizeKey rawKey)) ∧
    ((current.rotationKeys.getD []).filter
        (fun k => k != normalizeKey rawKey)).Sublist
      (current.rotationKeys.getD []) ∧
    normalizeKey rawKey ∉
      (current.rotationKeys.getD []).filter (fun k => k != normalizeKey rawKey) ∧
    (∀ x ∈ current.rotationKeys.getD [], x ≠ normalizeKey rawKey →
      x ∈ (current.rotationKeys.getD []).filter
        (fun k => k != normalizeKey rawKey)) ∧
    ((current.rotationKeys.getD []).filter
        (fun k => k != normalizeKey rawKey)).length =
      (current.rotationKeys.getD []).length -
        (current.rotationKeys.getD []).count (normalizeKey rawKey) := by
  have hm : normalizeKey rawKey ∈ current.rotationKeys.getD [] :=
    List.elem_iff.mp h
  refine ⟨by simp [removeRun, hm, removeOutcomeKeys], List.filter_sublist _,
    by simp [List.mem_filter], fun x hx hne => ?_, length_filter_bne _ _⟩
  simp [List.mem_filter, hx, hne]

theorem remove_removes_all_occurrences_witness :
    removeOutcomeKeys
      ((removeRun "zB".data
        ⟨some ["did:key:zA".data, "did:key:zB".data, "did:key:zC".data],
          (), (), none⟩).2) =
      some ["did:key:zA".data, "did:key:zC".data] := by
  have h := (remove_removes_all_occurrences "zB".data
    ⟨some ["did:key:zA".data, "did:key:zB".data, "did:key:zC".data],
      (), (), none⟩ (by decide)).1
  rw [h]; decide

/-- C3: when the normalized caller-supplied key is absent from the current
rotation-key set, `removeCommand` performs no further provider action at
all (in particular it never requests a confirmation code and submits no
operation), its outcome is the non-fatal `keyNotFound` return carrying the
current key set (which it prints before returning with exit code 0), and
the account's credentials — in particular its rotation-key set — are left
unchanged. -/
theorem remove_absent_key_noop {VM SV : Type} (rawKey : Str)
    (current : RecommendedCredentials VM SV)
    (h : (current.rotationKeys.getD []).contains (normalizeKey rawKey) = false) :
    removeRun rawKey current =
      ([], RemoveOutcome.keyNotFound (current.rotationKeys.getD [])) ∧
    applyRemoveOutcome current (removeRun rawKey current).2 = current := by
  have hm : normalizeKey rawKey ∉ current.rotationKeys.getD [] := by
    simpa using h
  constructor <;> simp [removeRun, hm, applyRemoveOutcome]

theorem remove_absent_key_noop_witness :
    removeRun "zC".data
        ⟨some ["did:key:zA".data], (), (), none⟩ =
      ([], RemoveOutcome.keyNotFound ["did:key:zA".data]) :=
  (remove_absent_key_noop "zC".data
    ⟨some ["did:key:zA".data], (), (), none⟩ (by decide)).1

/-- C5: supplying the bare encoded key and supplying the fully
`did:key:`-prefixed form of the same key are equivalent in
`removeCommand`: both normalize to the same string, yield the same
set-membership decision against the current rotation keys, and produce the
same trace and outcome (hence the same composed end state). -/
theorem remove_key_normalization {VM SV : Type} (bare : Str)
    (current : RecommendedCredentials VM SV)
    (h : "did:key:".data.isPrefixOf bare = false) :
    normalizeKey bare = normalizeKey ("did:key:".data ++ bare) ∧
    (current.rotationKeys.getD []).contains (normalizeKey bare) =
      (current.rotationKeys.getD []).contains
        (normalizeKey ("did:key:".data ++ bare)) ∧
    removeRun bare current = removeRun ("did:key:".data ++ bare) current := by
  have h1 : normalizeKey bare = "did:key:".data ++ bare := by
    simp [normalizeKey, h]
  have h2 : normalizeKey ("did:key:".data ++ bare) = "did:key:".data ++ bare := by
    simp [normalizeKey, isPrefixOf_append_self]
  refine ⟨h1.trans h2.symm, by rw [h1, h2], ?_⟩
  simp only [removeRun, h1, h2]

theorem remove_key_normalization_witness :
    removeRun "zA".data
        ⟨some ["did:key:zA".data], (), (), none⟩ =
      removeRun "did:key:zA".data ⟨some ["did:key:zA".data], (), (), none⟩ :=
  (remove_key_normalization "zA".data
    ⟨some ["did:key:zA".data], (), (), none⟩ (by decide)).2.2

/-- C4: the add-rotation-key workflow is idempotent.  Whenever the
candidate key's `did:key` identifier is already a member of the
rotation-key set fetched from the provider (which is only consulted after
the key string validates and imports), the workflow stops after login and
the credentials fetch with the successful no-op outcome `alreadyExists`
and submits nothing; and across two consecutive runs with the same key
(the second run fetching the credentials left by the first) at most one
change operation is submitted. -/
theorem rotation_add_idempotent {VM SV : Type} (didKeyOf : Str → Str)
    (hex : Str) (current : RecommendedCredentials VM SV) :
    (isHex64 hex = true → importOk hex = true →
      (current.rotationKeys.getD []).contains (didKeyOf hex) = true →
      rotationRun didKeyOf hex current =
        ([RotationStep.login, RotationStep.getRecommendedDidCredentials],
         RotationOutcome.alreadyExists)) ∧
    submitCount ((rotationRun didKeyOf hex current).1 ++
      (rotationRun didKeyOf hex
        (applyRotationOutcome current (rotationRun didKeyOf hex current).2)).1)
      ≤ 1 := by
  constructor
  · intro h1 h2 h3
    have hm : didKeyOf hex ∈ current.rotationKeys.getD [] := List.elem_iff.mp h3
    simp [rotationRun, h1, h2, hm]
  · by_cases h1 : isHex64 hex = true
    · by_cases h2 : importOk hex = true
      · by_cases h3 : didKeyOf hex ∈ current.rotationKeys.getD []
        · simp [rotationRun, h1, h2, h3, applyRotationOutcome, submitCount,
            isSubmitStep]
        · have hsecond : didKeyOf hex ∈
              (current.rotationKeys.getD [] ++ [didKeyOf hex]) := by simp
          simp [rotationRun, h1, h2, h3, applyRotationOutcome, hsecond,
            submitCount, isSubmitStep]
      · have h2' : importOk hex = false := by
          revert h2; cases importOk hex <;> simp
        simp [rotationRun, h1, h2', applyRotationOutcome, submitCount,
          isSubmitStep]
    · have h1' : isHex64 hex = false := by
        revert h1; cases isHex64 hex <;> simp
      simp [rotationRun, h1', applyRotationOutcome, submitCount, isSubmitStep]

theorem rotation_add_idempotent_witness :
    rotationRun (fun _ => "did:key:zX".data)
        (List.replicate 64 'a') ⟨some ["did:key:zX".data], (), (), none⟩ =
      ([RotationStep.login, RotationStep.getRecommendedDidCredentials],
       RotationOutcome.alreadyExists) :=
  (rotation_add_idempotent (fun _ => "did:key:zX".data) (List.replicate 64 'a')
    ⟨some ["did:key:zX".data], (), (), none⟩).1 (by decide) (by decide) (by decide)

/-- C6: when the key string validates and imports and the candidate
`did:key` identifier is not already present, the submitted operation's
rotation-key list is exactly the fetched list with the identifier appended
as the last element (existing entries and their order untouched), and the
verification methods, services and `alsoKnownAs` fields are passed through
from the fetched credentials unchanged. -/
theorem rotation_add_appends {VM SV : Type} (didKeyOf : Str → Str) (hex : Str)
    (current : RecommendedCredentials VM SV)
    (h1 : isHex64 hex = true) (h2 : importOk hex = true)
    (h3 : (current.rotationKeys.getD []).contains (didKeyOf hex) = false) :
    rotationOutcomeOp (rotationRun didKeyOf hex current).2 =
      some { rotationKeys := current.rotationKeys.getD [] ++ [didKeyOf hex]
             verificationMethods := current.verificationMethods
             services := current.services
             alsoKnownAs := current.alsoKnownAs } ∧
    (current.rotationKeys.getD [] ++ [didKeyOf hex]).getLast? =
      some (didKeyOf hex) ∧
    (current.rotationKeys.getD [] ++ [didKeyOf hex]).take
      (current.rotationKeys.getD []).length = current.rotationKeys.getD [] := by
  have hm : didKeyOf hex ∉ current.rotationKeys.getD [] := by simpa using h3
  refine ⟨by simp [rotationRun, h1, h2, hm, rotationOutcomeOp], ?_, ?_⟩
  · simp
  · exact List.take_left _ _

theorem rotation_add_appends_witness :
    rotationOutcomeOp
      ((rotationRun (fun _ => "did:key:zX".data)
        (List.replicate 64 'a') ⟨some ["did:key:zY".data], (), (), none⟩).2) =
      some { rotationKeys := ["did:key:zY".data, "did:key:zX".data]
             verificationMethods := ()
             services := ()
             alsoKnownAs := none } := by
  have h := (rotation_add_appends
    (fun _ => "did:key:zX".data) (List.replicate 64 'a')
    ⟨some ["did:key:zY".data], (), (), none⟩
    (by decide) (by decide) (by decide)).1
  rw [h]; rfl

/-- C7: in the add-rotation-key workflow with a caller-supplied private
key, any string that is not exactly 64 hex characters (either case) is
rejected with the invalid-format error before any externally visible step
(no login, no credentials fetch: the trace is empty); and the all-zero
64-hex-character scalar passes the format check but is rejected by the key
import, likewise before any externally visible step. -/
theorem rotation_rejects_invalid_key {VM SV : Type} (didKeyOf : Str → Str)
    (hex : Str) (current : RecommendedCredentials VM SV) :
    (isHex64 hex = false →
      rotationRun didKeyOf hex current = ([], RotationOutcome.invalidFormat)) ∧
    isHex64 (List.replicate 64 '0') = true ∧
    rotationRun didKeyOf (List.replicate 64 '0') current =
      ([], RotationOutcome.importError) := by
  have hz : isHex64 (List.replicate 64 '0') = true := by decide
  have hz2 : importOk (List.replicate 64 '0') = false := by decide
  refine ⟨fun h => by simp [rotationRun, h], hz, ?_⟩
  simp only [rotationRun]
  rw [hz, hz2]
  simp

theorem rotation_rejects_invalid_key_witness :
    rotationRun (fun _ => "did:key:zX".data)
        "xyz".data ⟨some [], (), (), none⟩ =
      ([], RotationOutcome.invalidFormat) :=
  (rotation_rejects_invalid_key (fun _ => "did:key:zX".data) "xyz".data
    ⟨some [], (), (), none⟩).1 (by decide)

/-- C8: `didCommand`'s document fetch dispatches on the DID's method tag:
a DID starting with `did:plc:` is fetched from the public PLC directory by
identifier (`https://plc.directory/<did>`); otherwise a DID starting with
`did:web:` is fetched from the well-known path
`https://<domain>/.well-known/did.json`, the domain being the DID with the
method tag removed and the first remaining colon turned into a path
separator; any other method tag fails with the unsupported-method error. -/
theorem fetch_dispatch_cases (did : Str) :
    ("did:plc:".data.isPrefixOf did = true →
      fetchDocumentDispatch did =
        FetchDispatch.plcDirectory ("https://plc.directory/".data ++ did)) ∧
    ("did:plc:".data.isPrefixOf did = false →
      "did:web:".data.isPrefixOf did = true →
      fetchDocumentDispatch did =
        FetchDispatch.webWellKnown ("https://".data ++
          replaceFirstColon (did.drop 8) ++ "/.well-known/did.json".data)) ∧
    ("did:plc:".data.isPrefixOf did = false →
      "did:web:".data.isPrefixOf did = false →
      fetchDocumentDispatch did =
        FetchDispatch.unsupported ("Unsupported DID method: ".data ++ did)) := by
  refine ⟨fun h => ?_, fun h1 h2 => ?_, fun h1 h2 => ?_⟩ <;>
    simp [fetchDocumentDispatch, *]

theorem fetch_dispatch_cases_witness :
    fetchDocumentDispatch "did:plc:abc".data =
      FetchDispatch.plcDirectory "https://plc.directory/did:plc:abc".data ∧
    fetchDocumentDispatch "did:web:example.com:user".data =
      FetchDispatch.webWellKnown
        "https://example.com/user/.well-known/did.json".data ∧
    fetchDocumentDispatch "did:ion:xyz".data =
      FetchDispatch.unsupported "Unsupported DID method: did:ion:xyz".data := by
  have h1 := (fetch_dispatch_cases "did:plc:abc".data).1 (by decide)
  have h2 := (fetch_dispatch_cases "did:web:example.com:user".data).2.1
    (by decide) (by decide)
  have h3 := (fetch_dispatch_cases "did:ion:xyz".data).2.2 (by decide) (by decide)
  refine ⟨?_, ?_, ?_⟩
  · rw [h1]; decide
  · rw [h2]; decide
  · rw [h3]; decide

/-- C10: for every `didCommand` input beginning with `@`, exactly the
leading `@` is stripped before handle resolution, so `@handle` routes to
the same handle resolution as `handle` does (whenever `handle` itself does
not carry the `did:` scheme); and the DID pass-through test is performed
on the original unstripped input, so an input beginning with `@` is never
passed through as an already-resolved DID, even when the remainder starts
with `did:`. -/
theorem did_at_stripping (rest : Str) :
    didCommandRoute ('@' :: rest) = ResolveRoute.resolveHandle rest ∧
    ("did:".data.isPrefixOf rest = false → "@".data.isPrefixOf rest = false →
      didCommandRoute rest = didCommandRoute ('@' :: rest)) ∧
    (∀ d : Str, didCommandRoute ('@' :: rest) ≠ ResolveRoute.passThrough d) := by
  have hat : "@".data.isPrefixOf ('@' :: rest) = true := by
    simp [List.isPrefixOf]
  have hdid : "did:".data.isPrefixOf ('@' :: rest) = false := by
    have hd : "did:".data = ['d', 'i', 'd', ':'] := rfl
    rw [hd]; simp [List.isPrefixOf]
  have h1 : didCommandRoute ('@' :: rest) = ResolveRoute.resolveHandle rest := by
    simp [didCommandRoute, hat, hdid]
  refine ⟨h1, fun h h2 => ?_,
    fun d hd => by rw [h1] at hd; exact absurd hd (by simp)⟩
  rw [h1]
  simp [didCommandRoute, h, h2]

theorem did_at_stripping_witness :
    didCommandRoute ('@' :: "did:plc:abc".data) =
      ResolveRoute.resolveHandle "did:plc:abc".data ∧
    didCommandRoute "nichoth.com".data =
      didCommandRoute ('@' :: "nichoth.com".data) :=
  ⟨(did_at_stripping "did:plc:abc".data).1,
   (did_at_stripping "nichoth.com".data).2.1 (by decide) (by decide)⟩

/- ### base64url lemmas for the JWK claim -/

theorem b64Val_b64Char : ∀ n < 64, b64Val (b64Char n) = n := by decide

theorem b64Char_mem : ∀ n < 64, b64Char n ∈ b64UrlAlphabet := by decide

theorem base64url_length (l : List Nat) :
    (base64url l).length = (l.length * 4 + 2) / 3 := by
  induction l using base64url.induct with
  | case1 => simp [base64url]
  | case2 a => simp [base64url]
  | case3 a b => simp [base64url]
  | case4 a b c rest ih => simp [base64url, ih]; omega

theorem base64url_roundtrip (l : List Nat) (h : ∀ b ∈ l, b < 256) :
    base64urlDecode (base64url l) = l := by
  induction l using base64url.induct with
  | case1 => simp [base64url, base64urlDecode]
  | case2 a =>
    have ha : a < 256 := h a (by simp)
    simp only [base64url, base64urlDecode]
    rw [b64Val_b64Char _ (by omega), b64Val_b64Char _ (by omega)]
    simp; omega
  | case3 a b =>
    have ha : a < 256 := h a (by simp)
    have hb : b < 256 := h b (by simp)
    simp only [base64url, base64urlDecode]
    rw [b64Val_b64Char _ (by omega), b64Val_b64Char _ (by omega),
      b64Val_b64Char _ (by omega)]
    simp; constructor <;> omega
  | case4 a b c rest ih =>
    have ha : a < 256 := h a (by simp)
    have hb : b < 256 := h b (by simp)
    have hc : c < 256 := h c (by simp)
    have hrest : ∀ x ∈ rest, x < 256 := fun x hx => h x (by simp [hx])
    simp only [base64url, base64urlDecode]
    rw [b64Val_b64Char _ (by omega), b64Val_b64Char _ (by omega),
      b64Val_b64Char _ (by omega), b64Val_b64Char _ (by omega), ih hrest]
    simp only [List.cons.injEq]
    refine ⟨by omega, by omega, by omega, trivial⟩

theorem base64url_chars_mem (l : List Nat) (h : ∀ b ∈ l, b < 256) :
    ∀ c ∈ base64url l, c ∈ b64UrlAlphabet := by
  induction l using base64url.induct with
  | case1 => simp [base64url]
  | case2 a =>
    have ha : a < 256 := h a (by simp)
    intro c hc
    simp only [base64url, List.mem_cons, List.not_mem_nil, or_false] at hc
    rcases hc with h1 | h1 <;> (subst h1; exact b64Char_mem _ (by omega))
  | case3 a b =>
    have ha : a < 256 := h a (by simp)
    have hb : b < 256 := h b (by simp)
    intro c hc
    simp only [base64url, List.mem_cons, List.not_mem_nil, or_false] at hc
    rcases hc with h1 | h1 | h1 <;> (subst h1; exact b64Char_mem _ (by omega))
  | case4 a b c rest ih =>
    have ha : a < 256 := h a (by simp)
    have hb : b < 256 := h b (by simp)
    have hc : c < 256 := h c (by simp)
    have hrest : ∀ x ∈ rest, x < 256 := fun x hx => h x (by simp [hx])
    intro x hx
    simp only [base64url, List.mem_cons] at hx
    rcases hx with h1 | h1 | h1 | h1 | h1
    · subst h1; exact b64Char_mem _ (by omega)
    · subst h1; exact b64Char_mem _ (by omega)
    · subst h1; exact b64Char_mem _ (by omega)
    · subst h1; exact b64Char_mem _ (by omega)
    · exact ih hrest x h1

/-- C9: for every 32-byte private scalar and every valid decompressed
public point (the decompression, performed by the external library,
recovers 32-byte x and y coordinates with the y-parity matching the
compressed point's sign byte), the JWK built by `keysCommand` has `x`, `y`
and `d` fields of exactly 43 base64url characters (within the claimed
43-44 range), drawn solely from the base64url alphabet (in particular no
`=` padding, which is not in that alphabet), whose decodings give back
exactly the 32-byte x-coordinate, the 32-byte y-coordinate (with the
sign-byte-consistent parity) and the original 32-byte private scalar. -/
theorem jwk_shape (priv : List Nat) (p : DecompressedPoint)
    (hl : priv.length = 32) (hb : ∀ b ∈ priv, b < 256) :
    (jwkOfKeypair priv p.toRawBytes).x.length = 43 ∧
    (jwkOfKeypair priv p.toRawBytes).y.length = 43 ∧
    (jwkOfKeypair priv p.toRawBytes).d.length = 43 ∧
    base64urlDecode (jwkOfKeypair priv p.toRawBytes).x = p.xBytes ∧
    base64urlDecode (jwkOfKeypair priv p.toRawBytes).y = p.yBytes ∧
    p.xBytes.length = 32 ∧ p.yBytes.length = 32 ∧
    (base64urlDecode (jwkOfKeypair priv p.toRawBytes).y).getLastD 0 % 2 =
      p.signByte % 2 ∧
    base64urlDecode (jwkOfKeypair priv p.toRawBytes).d = priv ∧
    (∀ c ∈ (jwkOfKeypair priv p.toRawBytes).x, c ∈ b64UrlAlphabet) ∧
    (∀ c ∈ (jwkOfKeypair priv p.toRawBytes).y, c ∈ b64UrlAlphabet) ∧
    (∀ c ∈ (jwkOfKeypair priv p.toRawBytes).d, c ∈ b64UrlAlphabet) ∧
    '=' ∉ b64UrlAlphabet := by
  have hxslice : ((p.toRawBytes).drop 1).take 32 = p.xBytes := by
    show ((p.xBytes ++ p.yBytes).take 32) = p.xBytes
    have h0 := List.take_left p.xBytes p.yBytes
    rwa [p.xLen] at h0
  have hyslice : ((p.toRawBytes).drop 33).take 32 = p.yBytes := by
    have hdrop : (p.toRawBytes).drop 33 = p.yBytes := by
      show ((p.xBytes ++ p.yBytes).drop 32) = p.yBytes
      have h0 := List.drop_left p.xBytes p.yBytes
      rwa [p.xLen] at h0
    rw [hdrop, ← p.yLen, List.take_length]
  have hjx : (jwkOfKeypair priv p.toRawBytes).x = base64url p.xBytes := by
    simp only [jwkOfKeypair, hxslice]
  have hjy : (jwkOfKeypair priv p.toRawBytes).y = base64url p.yBytes := by
    simp only [jwkOfKeypair, hyslice]
  have hjd : (jwkOfKeypair priv p.toRawBytes).d = base64url priv := by
    simp only [jwkOfKeypair]
  have hdx : base64urlDecode (base64url p.xBytes) = p.xBytes :=
    base64url_roundtrip _ p.xBound
  have hdy : base64urlDecode (base64url p.yBytes) = p.yBytes :=
    base64url_roundtrip _ p.yBound
  refine ⟨?_, ?_, ?_, ?_, ?_, p.xLen, p.yLen, ?_, ?_, ?_, ?_, ?_, by decide⟩
  · rw [hjx, base64url_length, p.xLen]
  · rw [hjy, base64url_length, p.yLen]
  · rw [hjd, base64url_length, hl]
  · rw [hjx, hdx]
  · rw [hjy, hdy]
  · rw [hjy, hdy]; exact p.parityConsistent
  · rw [hjd]; exact base64url_roundtrip _ hb
  · rw [hjx]; exact base64url_chars_mem _ p.xBound
  · rw [hjy]; exact base64url_chars_mem _ p.yBound
  · rw [hjd]; exact base64url_chars_mem _ hb

theorem jwk_shape_witness :
    (jwkOfKeypair (List.replicate 32 7) samplePoint.toRawBytes).x.length = 43 ∧
    base64urlDecode
      (jwkOfKeypair (List.replicate 32 7) samplePoint.toRawBytes).d =
      List.replicate 32 7 := by
  have h := jwk_shape (List.replicate 32 7) samplePoint (by decide) (by decide)
  exact ⟨h.1, h.2.2.2.2.2.2.2.2.1⟩
